import Mathlib

/-!
Verification of the kalshi_mm market maker core against its specification.

The Python sources under `src/` are shallowly embedded:
- Python `int` becomes `Int`.
- Python `float` arithmetic on prices becomes exact `ℚ` arithmetic.  Every
  concrete value used in a theorem below is small and dyadic, so the Python
  float computation is exact there and agrees with `ℚ`.
- `Optional[T]` becomes `Option T`; Python truthiness of an `Optional[str]`
  (both `None` and `""` are falsy) is modelled explicitly where the source
  relies on it.
- Stateful methods become explicit state-passing functions.
- Wall-clock fields (`last_updated`, `datetime`) and logging are elided:
  no embedded theorem mentions them.
-/

namespace KalshiMM

/-! ## Configuration (src/src/config.py) -/

/-- Total spread width in cents (`config.SPREAD_WIDTH`). -/
def SPREAD_WIDTH : Int := 4

/-- Risk limits read by the risk gate (`config.MAX_POSITION_SIZE`,
`config.MAX_TOTAL_EXPOSURE`).  They are module constants in the source; the
risk-gate functions below take them as a parameter so theorems can quantify
over them. -/
structure RiskConfig where
  maxPositionSize : Int
  maxTotalExposure : Int
deriving DecidableEq

/-- The values in `config.py`: `MAX_POSITION_SIZE = 30`, `MAX_TOTAL_EXPOSURE = 5`. -/
def defaultRiskConfig : RiskConfig := ⟨30, 5⟩

/-! ## Data model (src/src/models.py) -/

inductive Side where
  | yes
  | no
deriving DecidableEq

inductive Action where
  | buy
  | sell
deriving DecidableEq

/-- `models.Fill`: a single executed trade as reported by the exchange.
`created_time` is modelled as a Unix timestamp in seconds. -/
structure Fill where
  fill_id : String
  order_id : String
  ticker : String
  side : Side
  action : Action
  count : Int
  yes_price : Int
  no_price : Int
  is_taker : Bool
  created_time : Int
deriving DecidableEq

/-- `models.TrackedPosition` (the `last_updated` datetime field is elided). -/
structure TrackedPosition where
  ticker : String
  position : Int := 0
  avg_entry_price : ℚ := 0
  realized_pnl_cents : Int := 0
  last_fill_id : Option String := none
deriving DecidableEq

/-- A `TrackedPosition(ticker=t)` with all defaulted fields. -/
def zeroPos (t : String) : TrackedPosition := { ticker := t }

/-! ## Python numeric helpers

The quote calculation works on half-integers (midpoint of two ints, half of
the even `SPREAD_WIDTH`).  We represent a half-integer `x` by the integer
`2 * x` and model `round` / `int()` on it exactly. -/

/-- Truncation toward zero of a rational, i.e. Python `int(x)` on a float
whose value is exactly `q`. -/
def ratTrunc (q : ℚ) : Int :=
  if 0 ≤ q then ⌊q⌋ else -⌊-q⌋

/-- Python 3 `round(m / 2)` for an integer `m` (round half to even). -/
def pyRoundHalf (m : Int) : Int :=
  if m % 2 = 0 then m / 2
  else
    let k := (m - 1) / 2
    if k % 2 = 0 then k else k + 1

/-- Python `int(m / 2)` for an integer `m`: truncation toward zero. -/
def intHalfTrunc (m : Int) : Int :=
  if 0 ≤ m then m / 2 else -((-m) / 2)

/-! ## Quoter pure calculation (src/src/quoter.py, `Quoter.calculate_quotes`)

The source computes with floats:
  `midpoint = (best_bid + best_ask) / 2`, `half_spread = SPREAD_WIDTH / 2`,
  `raw_bid = midpoint - half_spread - skew`, `raw_ask = midpoint + half_spread - skew`,
rounds both, clamps both to `[1, 99]`, and if the clamped pair is crossed
falls back to `int(midpoint) - 1` / `int(midpoint) + 1`.
All intermediate values are half-integers, represented doubled below
(`t = 2 * midpoint`, `rawBid2 = 2 * raw_bid`, ...); the float arithmetic is
exact at these magnitudes. -/
def calculate_quotes (best_bid best_ask inventory_skew : Int) : Int × Int :=
  let t := best_bid + best_ask
  let rawBid2 := t - SPREAD_WIDTH - 2 * inventory_skew
  let rawAsk2 := t + SPREAD_WIDTH - 2 * inventory_skew
  let bid0 := pyRoundHalf rawBid2
  let ask0 := pyRoundHalf rawAsk2
  let bid1 := max 1 (min 99 bid0)
  let ask1 := max 1 (min 99 ask0)
  if bid1 ≥ ask1 then (intHalfTrunc t - 1, intHalfTrunc t + 1)
  else (bid1, ask1)

/-- C1.  The claim states that for all `1 ≤ best_bid < best_ask ≤ 99` and
`inventory_skew ∈ [−50, 50]`, `calculate_quotes` returns `1 ≤ bid, ask ≤ 99`
with `bid < ask`.  The code violates the lower bound on `bid`: at
`best_bid = 1, best_ask = 2, inventory_skew = 3` both rounded prices clamp
to 1, the anti-cross fallback fires, and the code returns
`(int(1.5) - 1, int(1.5) + 1) = (0, 2)` — a bid of 0, below the 1–99 range
that the function's own docstring promises to clamp to. -/
theorem c1_quote_bounds_failing_eval : calculate_quotes 1 2 3 = (0, 2) := by
  decide

/-! ## Position ledger (src/src/position_manager.py, `PositionManager._apply_fill`)

`_apply_fill` signs the position change from `fill.action` alone
(`delta = +count` for buy, `-count` for sell), then either folds the fill
into the weighted average entry price (opening or adding) or books realized
P&L truncated to integer cents via Python `int()` (reducing or closing).
The `fill.side` field is never consulted. -/
def applyFill (p : TrackedPosition) (f : Fill) : TrackedPosition :=
  let delta : Int := if f.action = Action.buy then f.count else -f.count
  let oldPosition := p.position
  let newPosition := oldPosition + delta
  if oldPosition = 0 ∨ oldPosition * delta > 0 then
    let oldCost : ℚ := |oldPosition| * p.avg_entry_price
    let newCost : ℚ := (f.count : ℚ) * (f.yes_price : ℚ)
    let totalContracts := |newPosition|
    let newAvg : ℚ :=
      if totalContracts > 0 then (oldCost + newCost) / (totalContracts : ℚ)
      else p.avg_entry_price
    { p with position := newPosition, avg_entry_price := newAvg,
             last_fill_id := some f.fill_id }
  else
    let contractsClosed : Int := min |oldPosition| |delta|
    let realized : ℚ :=
      if oldPosition > 0 then
        ((f.yes_price : ℚ) - p.avg_entry_price) * (contractsClosed : ℚ)
      else
        (p.avg_entry_price - (f.yes_price : ℚ)) * (contractsClosed : ℚ)
    { p with position := newPosition,
             realized_pnl_cents := p.realized_pnl_cents + ratTrunc realized,
             last_fill_id := some f.fill_id }

/-- C3.  A fill changes the net position by exactly `+count` when its action
is buy and `-count` when its action is sell.  The theorem quantifies over
every fill, in particular over both values of the exchange-reported `side`
field, which `applyFill` never reads: the position delta is independent of
`side`. -/
theorem c3_delta_from_action (p : TrackedPosition) (f : Fill) :
    (applyFill p f).position =
      p.position + (if f.action = Action.buy then f.count else -f.count) := by
  simp only [applyFill]
  split <;> split <;> rfl

/-- C4.  The claim (and spec section 4.1) states that a fill that flips the
sign of the position leaves `avg_entry_price = yes_price` on the remainder.
The code does not: its reducing/closing branch books realized P&L but never
touches `avg_entry_price`.  At net = +2 with `avg_entry_price = 40`, a sell
of 5 contracts at `yes_price = 55` flips the position to net = −3, yet the
code leaves `avg_entry_price` at 40 instead of the required 55. -/
theorem c4_flip_avg_eval :
    (applyFill { ticker := "T", position := 2, avg_entry_price := 40 }
        { fill_id := "f1", order_id := "o1", ticker := "T", side := Side.no,
          action := Action.sell, count := 5, yes_price := 55, no_price := 45,
          is_taker := true, created_time := 0 }).position = -3 ∧
    (applyFill { ticker := "T", position := 2, avg_entry_price := 40 }
        { fill_id := "f1", order_id := "o1", ticker := "T", side := Side.no,
          action := Action.sell, count := 5, yes_price := 55, no_price := 45,
          is_taker := true, created_time := 0 }).avg_entry_price = 40 := by
  constructor <;> simp [applyFill]

/-- C5 counterexample.  The claim asserts that a reducing fill increases
`realized_pnl_cents` by exactly `(yes_price − avg_entry_price) · closed`, but
the code truncates through Python `int()`.  At net = +2 with fractional
`avg_entry_price = 40.5` (reachable by buying 1 @ 40 then 1 @ 41), a sell of
1 contract at `yes_price = 55` should add 14.5 by the claim; the code adds
14, so the claimed equation fails. -/
theorem c5_truncation_counterexample :
    (applyFill { ticker := "T", position := 2, avg_entry_price := 81/2 }
        { fill_id := "f2", order_id := "o2", ticker := "T", side := Side.no,
          action := Action.sell, count := 1, yes_price := 55, no_price := 45,
          is_taker := true, created_time := 0 }).realized_pnl_cents = 14 ∧
    ¬ (((applyFill { ticker := "T", position := 2, avg_entry_price := 81/2 }
        { fill_id := "f2", order_id := "o2", ticker := "T", side := Side.no,
          action := Action.sell, count := 1, yes_price := 55, no_price := 45,
          is_taker := true, created_time := 0 }).realized_pnl_cents : ℚ) =
        0 + ((55 : ℚ) - 81/2) * 1) := by
  constructor
  · simp [applyFill]
    norm_num [ratTrunc]
  · simp [applyFill]
    norm_num [ratTrunc]

/-- C5 (amended).  For a fill that reduces an existing position without
flipping its sign, `applyFill` increases `realized_pnl_cents` by the Python
`int()`-truncation of `(yes_price − avg_entry_price) · closed` when the old
position is long and of `(avg_entry_price − yes_price) · closed` when it is
short, with `closed = min(|old|, |delta|)`; it leaves `avg_entry_price`
unchanged and moves the position by `delta`. -/
theorem c5_reduce_realized (p : TrackedPosition) (f : Fill)
    (hne : p.position ≠ 0)
    (hsign : Int.sign p.position ≠
      Int.sign (if f.action = Action.buy then f.count else -f.count)) :
    (applyFill p f).realized_pnl_cents =
      p.realized_pnl_cents + ratTrunc
        (if p.position > 0 then
          ((f.yes_price : ℚ) - p.avg_entry_price) *
            ((min |p.position| |if f.action = Action.buy then f.count else -f.count| : Int) : ℚ)
         else
          (p.avg_entry_price - (f.yes_price : ℚ)) *
            ((min |p.position| |if f.action = Action.buy then f.count else -f.count| : Int) : ℚ)) ∧
    (applyFill p f).avg_entry_price = p.avg_entry_price ∧
    (applyFill p f).position =
      p.position + (if f.action = Action.buy then f.count else -f.count) := by
  have hbranch : ¬ (p.position = 0 ∨
      p.position * (if f.action = Action.buy then f.count else -f.count) > 0) := by
    rintro (h0 | hpos)
    · exact hne h0
    · rcases mul_pos_iff.mp hpos with ⟨ha, hb⟩ | ⟨ha, hb⟩
      · exact hsign (by rw [Int.sign_eq_one_iff_pos.mpr ha, Int.sign_eq_one_iff_pos.mpr hb])
      · exact hsign (by
          rw [Int.sign_eq_neg_one_iff_neg.mpr ha, Int.sign_eq_neg_one_iff_neg.mpr hb])
  simp only [applyFill]
  rw [if_neg hbranch]
  exact ⟨rfl, rfl, rfl⟩

/-- C5 witness: scenario S5 of the spec.  From net = +5, `avg = 40`, a sell
fill of 3 contracts at `yes_price = 55` yields net = +2, `avg = 40`, and
realized P&L +45. -/
theorem c5_reduce_realized_witness :
    (applyFill { ticker := "T", position := 5, avg_entry_price := 40 }
        { fill_id := "f3", order_id := "o3", ticker := "T", side := Side.no,
          action := Action.sell, count := 3, yes_price := 55, no_price := 45,
          is_taker := true, created_time := 0 }).realized_pnl_cents = 45 ∧
    (applyFill { ticker := "T", position := 5, avg_entry_price := 40 }
        { fill_id := "f3", order_id := "o3", ticker := "T", side := Side.no,
          action := Action.sell, count := 3, yes_price := 55, no_price := 45,
          is_taker := true, created_time := 0 }).avg_entry_price = 40 ∧
    (applyFill { ticker := "T", position := 5, avg_entry_price := 40 }
        { fill_id := "f3", order_id := "o3", ticker := "T", side := Side.no,
          action := Action.sell, count := 3, yes_price := 55, no_price := 45,
          is_taker := true, created_time := 0 }).position = 2 := by
  have h := c5_reduce_realized
    { ticker := "T", position := 5, avg_entry_price := 40 }
    { fill_id := "f3", order_id := "o3", ticker := "T", side := Side.no,
      action := Action.sell, count := 3, yes_price := 55, no_price := 45,
      is_taker := true, created_time := 0 }
    (by decide) (by decide)
  refine ⟨?_, ?_, ?_⟩
  · rw [h.1]; simp; norm_num [ratTrunc]
  · rw [h.2.1]
  · rw [h.2.2]; simp

/-! ## PositionManager state (src/src/position_manager.py)

`PositionManager` keeps a `ticker -> TrackedPosition` dict (modelled as an
association list in insertion order, like a Python dict), the fill
watermark (`_last_fill_id`, `_last_fill_ts`) and the cached balance in
cents (`_balance`, truthy whenever set). -/
structure PMState where
  positions : List (String × TrackedPosition) := []
  last_fill_id : Option String := none
  last_fill_ts : Option Int := none
  balance : Option Int := none
deriving DecidableEq

/-- Python `ticker in self._positions` / `self._positions[ticker]` on the
insertion-ordered dict. -/
def findPos : List (String × TrackedPosition) → String → Option TrackedPosition
  | [], _ => none
  | (k, p) :: rest, t => if k = t then some p else findPos rest t

/-- In-place replacement of the dict entry for `t` (the Python code mutates
the `TrackedPosition` object held in the dict), appending on a miss. -/
def setPos : List (String × TrackedPosition) → String → TrackedPosition →
    List (String × TrackedPosition)
  | [], t, p => [(t, p)]
  | (k, q) :: rest, t, p => if k = t then (k, p) :: rest else (k, q) :: setPos rest t p

/-- `PositionManager.get_position`: returns the tracked position for a
market, lazily inserting a zero position into the dict on a miss.  The
second component is the (possibly grown) manager state. -/
def get_position (s : PMState) (t : String) : TrackedPosition × PMState :=
  match findPos s.positions t with
  | some p => (p, s)
  | none => (zeroPos t, { s with positions := s.positions ++ [(t, zeroPos t)] })

/-- `TrackedPosition.exposure_cents`: maximum potential loss in cents,
truncated to an integer exactly as Python `int()` does. -/
def exposure_cents (p : TrackedPosition) : Int :=
  if p.position = 0 then 0
  else if p.position > 0 then ratTrunc ((|p.position| : ℚ) * p.avg_entry_price)
  else ratTrunc ((|p.position| : ℚ) * (100 - p.avg_entry_price))

/-- Sum of `exposure_cents` over every tracked position
(`PositionManager.total_exposure_cents`). -/
def totalExposure (ps : List (String × TrackedPosition)) : Int :=
  ps.foldl (fun acc kp => acc + exposure_cents kp.2) 0

/-- Sum of `exposure_cents` over every tracked position except `t` (the
`other_exposure` sum inside `can_add_position`). -/
def otherExposure (ps : List (String × TrackedPosition)) (t : String) : Int :=
  (ps.filter (fun kp => kp.1 ≠ t)).foldl (fun acc kp => acc + exposure_cents kp.2) 0

/-- `PositionManager.can_add_position`.  The source consults
`config.MAX_POSITION_SIZE` and `config.MAX_TOTAL_EXPOSURE`; they are passed
in as `cfg`.  The early `return` statements of the source become an
if-chain; every path leaves the manager state at `(get_position s t).2`. -/
def can_add_position (s : PMState) (cfg : RiskConfig) (ticker : String) (side : Side)
    (contracts price_cents : Int) : (Bool × String) × PMState :=
  let gp := get_position s ticker
  let current_pos := gp.1
  let s1 := gp.2
  let delta : Int := if side = Side.yes then contracts else -contracts
  let new_position := current_pos.position + delta
  let new_contracts := |new_position|
  let decision : Bool × String :=
    if current_pos.position > 0 ∧ side = Side.no ∧ new_contracts < |current_pos.position| then
      (true, "Risk-reducing order allowed")
    else if current_pos.position < 0 ∧ side = Side.yes ∧ new_contracts < |current_pos.position| then
      (true, "Risk-reducing order allowed")
    else if new_contracts > cfg.maxPositionSize then
      (false, "Exceeds max position size")
    else
      let new_exposure_cents : Int :=
        if new_position > 0 then new_contracts * price_cents
        else if new_position < 0 then new_contracts * (100 - price_cents)
        else 0
      let total_new_exposure := otherExposure s1.positions ticker + new_exposure_cents
      if total_new_exposure > cfg.maxTotalExposure * 100 then
        (false, "Exceeds max total exposure")
      else (true, "OK")
  (decision, s1)

/-- `PositionManager.calculate_max_order_size`.  Python `//` is floor
division, hence `Int.fdiv`; `available_balance_cents` is 0 when no balance
is cached. -/
def calculate_max_order_size (s : PMState) (cfg : RiskConfig) (ticker : String)
    (side : Side) (price_cents : Int) : Int × PMState :=
  let gp := get_position s ticker
  let current_pos := gp.1
  let s1 := gp.2
  let max_from_pos_limit : Int :=
    if side = Side.yes then
      if current_pos.position ≥ 0 then cfg.maxPositionSize - current_pos.position
      else cfg.maxPositionSize + |current_pos.position|
    else
      if current_pos.position ≤ 0 then cfg.maxPositionSize - |current_pos.position|
      else cfg.maxPositionSize + current_pos.position
  let remaining_exposure := cfg.maxTotalExposure * 100 - totalExposure s1.positions
  let cost_per_contract : Int := if side = Side.yes then price_cents else 100 - price_cents
  let max_from_exposure : Int :=
    if cost_per_contract > 0 then Int.fdiv remaining_exposure cost_per_contract
    else cfg.maxPositionSize
  let max_from_balance : Int :=
    if cost_per_contract > 0 then Int.fdiv (s1.balance.getD 0) cost_per_contract
    else cfg.maxPositionSize
  (max 0 (min max_from_pos_limit (min max_from_exposure max_from_balance)), s1)

/-- C6.  A strictly risk-reducing candidate (delta of opposite sign to a
nonzero current position, shrinking its absolute value) is always allowed:
`can_add_position` returns before the `MAX_POSITION_SIZE` and total
exposure checks, whatever the configured limits and whatever the rest of
the ledger holds.  Contract counts are non-negative by the data model. -/
theorem c6_risk_reducing_allowed (s : PMState) (cfg : RiskConfig) (t : String)
    (side : Side) (contracts price_cents : Int)
    (hc : 0 ≤ contracts)
    (hopp : (0 < (get_position s t).1.position ∧
              (if side = Side.yes then contracts else -contracts) < 0) ∨
            ((get_position s t).1.position < 0 ∧
              0 < (if side = Side.yes then contracts else -contracts)))
    (hred : |(get_position s t).1.position +
              (if side = Side.yes then contracts else -contracts)| <
            |(get_position s t).1.position|) :
    (can_add_position s cfg t side contracts price_cents).1.1 = true := by
  cases side with
  | yes =>
    rw [if_pos rfl] at hopp hred
    rcases hopp with ⟨hpos, hneg⟩ | ⟨hneg, hpos⟩
    · exact absurd hneg (not_lt.mpr hc)
    · simp [can_add_position, hneg, hred]
  | no =>
    rw [if_neg (by decide : ¬ (Side.no = Side.yes))] at hopp hred
    rcases hopp with ⟨hpos, hneg⟩ | ⟨hneg, hpos⟩
    · simp [can_add_position, hpos, hred]
    · omega

/-- C6 witness: scenario S6 of the spec.  With `MAX_POSITION_SIZE = 2`,
current net = −5, the candidate `(side = yes, contracts = 2, price = 40)`
moves the position to −3 and is allowed although `3 > 2`. -/
theorem c6_risk_reducing_allowed_witness :
    (can_add_position
        { positions := [("T", { ticker := "T", position := -5 })] }
        ⟨2, 5⟩ "T" Side.yes 2 40).1.1 = true := by
  apply c6_risk_reducing_allowed
  · decide
  · apply Or.inr
    constructor
    · simp [get_position, findPos]
    · simp [get_position, findPos]
  · simp [get_position, findPos]

/-- Helper: an entry found in the dict is still found after the lazy append
performed by `get_position` on a miss. -/
theorem findPos_append (ps : List (String × TrackedPosition)) (k t : String)
    (p z : TrackedPosition) (h : findPos ps k = some p) :
    findPos (ps ++ [(t, z)]) k = some p := by
  induction ps with
  | nil => simp [findPos] at h
  | cons hd tl ih =>
    obtain ⟨a, b⟩ := hd
    by_cases hk : a = k
    · simpa [findPos, hk] using h
    · rw [findPos, if_neg hk] at h
      simpa [findPos, hk] using ih h

/-- C9 counterexample.  The claim says `can_add_position` leaves the set of
tracked tickers unchanged, but `get_position` (which it calls first)
lazily inserts a zero position: on a fresh manager a single risk-gate query
for ticker `"T"` grows the ledger from no tracked tickers to one. -/
theorem c9_lazy_insert_counterexample :
    ((can_add_position { } ⟨30, 5⟩ "T" Side.yes 1 50).2).positions =
      [("T", zeroPos "T")] ∧
    ([] : List (String × TrackedPosition)) ≠ [("T", zeroPos "T")] := by
  constructor
  · simp [can_add_position, get_position, findPos]
  · simp

/-- C9 (amended).  Both risk-gate operations are read-only up to the lazy
insertion `get_position` performs: they return the same manager state as a
bare `get_position` on the queried ticker, the cached balance and the fill
watermark are untouched, every previously tracked position is preserved
unchanged, and the dict itself is unchanged when the queried ticker was
already tracked (growing by exactly the one zero entry otherwise). -/
theorem c9_risk_gate_frame (s : PMState) (cfg : RiskConfig) (t : String)
    (side : Side) (contracts price_cents : Int) :
    (can_add_position s cfg t side contracts price_cents).2 =
      (calculate_max_order_size s cfg t side price_cents).2 ∧
    (can_add_position s cfg t side contracts price_cents).2.balance = s.balance ∧
    (can_add_position s cfg t side contracts price_cents).2.last_fill_id = s.last_fill_id ∧
    (can_add_position s cfg t side contracts price_cents).2.last_fill_ts = s.last_fill_ts ∧
    (∀ k p, findPos s.positions k = some p →
      findPos (can_add_position s cfg t side contracts price_cents).2.positions k = some p) ∧
    ((findPos s.positions t).isSome = true →
      (can_add_position s cfg t side contracts price_cents).2.positions = s.positions) ∧
    (findPos s.positions t = none →
      (can_add_position s cfg t side contracts price_cents).2.positions =
        s.positions ++ [(t, zeroPos t)]) := by
  have hstate : (can_add_position s cfg t side contracts price_cents).2 =
      (get_position s t).2 := rfl
  have hstate2 : (calculate_max_order_size s cfg t side price_cents).2 =
      (get_position s t).2 := rfl
  rw [hstate, hstate2]
  cases hf : findPos s.positions t with
  | some p =>
    simp [get_position, hf]
  | none =>
    simp [get_position, hf]
    intro k q hq
    exact findPos_append s.positions k t q (zeroPos t) hq

/-- C9 witness: on a fresh manager with a cached balance of 1000 cents, a
`can_add_position` query leaves the cached balance untouched. -/
theorem c9_risk_gate_frame_witness :
    ((can_add_position { balance := some 1000 } ⟨30, 5⟩ "T" Side.yes 1 50).2).balance =
      some 1000 := by
  have h := c9_risk_gate_frame { balance := some 1000 } ⟨30, 5⟩ "T" Side.yes 1 50
  simpa using h.2.1

/-! ## Fill polling (src/src/position_manager.py, `PositionManager.poll_fills`)

`poll_fills` walks the exchange response newest-first, stops at the first
fill whose id matches the watermark — with Python truthiness, so a `None`
or empty-string watermark never matches — applies the remaining fills in
order, and, when anything new was applied, advances the watermark to the
newest fill and refreshes the balance (the freshly fetched balance is a
parameter here). -/

/-- The loop guard `if self._last_fill_id and fill.fill_id == self._last_fill_id`,
with Python truthiness of the `Optional[str]` watermark. -/
def truthyWatermarkHit : Option String → String → Bool
  | none, _ => false
  | some w, fid => (w != "") && (fid == w)

/-- The prefix of the newest-first response that precedes the watermark
(the fills collected into `new_fills`). -/
def collectNew (wm : Option String) : List Fill → List Fill
  | [] => []
  | f :: rest => if truthyWatermarkHit wm f.fill_id then [] else f :: collectNew wm rest

/-- `PositionManager._apply_fill` restricted to its effect on the manager
state: look up (lazily creating) the position, apply the fill, store the
mutated object back.  Callback dispatch touches no `PMState` field and is
elided. -/
def applyFillLedger (s : PMState) (f : Fill) : PMState :=
  let gp := get_position s f.ticker
  let s1 := gp.2
  { s1 with positions := setPos s1.positions f.ticker (applyFill gp.1 f) }

/-- `PositionManager.poll_fills` on one exchange response (newest-first
list of fills).  Returns the updated state and the list of new fills. -/
def pollFills (s : PMState) (fillsData : List Fill) (fetchedBalanceCents : Int) :
    PMState × List Fill :=
  match collectNew s.last_fill_id fillsData with
  | [] => (s, [])
  | latest :: rest =>
    let newFills := latest :: rest
    let s1 := newFills.foldl applyFillLedger s
    ({ s1 with last_fill_id := some latest.fill_id,
               last_fill_ts := some latest.created_time,
               balance := some fetchedBalanceCents }, newFills)

/-- C2 counterexample.  The claim quantifies over every fill sequence, but
the watermark guard uses Python truthiness: a fill whose `fill_id` is the
empty string sets a falsy watermark, so replaying the same response applies
the fill again.  One buy of 1 contract with `fill_id = ""` leaves net 1
after the first poll and net 2 after replaying the identical response. -/
theorem c2_replay_counterexample :
    ((findPos (pollFills (pollFills { }
        [{ fill_id := "", order_id := "o1", ticker := "T", side := Side.yes,
           action := Action.buy, count := 1, yes_price := 50, no_price := 50,
           is_taker := false, created_time := 100 }] 0).1
        [{ fill_id := "", order_id := "o1", ticker := "T", side := Side.yes,
           action := Action.buy, count := 1, yes_price := 50, no_price := 50,
           is_taker := false, created_time := 100 }] 0).1.positions "T").getD
      (zeroPos "T")).position = 2 ∧
    ((findPos (pollFills { }
        [{ fill_id := "", order_id := "o1", ticker := "T", side := Side.yes,
           action := Action.buy, count := 1, yes_price := 50, no_price := 50,
           is_taker := false, created_time := 100 }] 0).1.positions "T").getD
      (zeroPos "T")).position = 1 := by
  constructor
  · simp [pollFills, collectNew, truthyWatermarkHit, applyFillLedger, applyFill,
      get_position, findPos, setPos, zeroPos]
  · simp [pollFills, collectNew, truthyWatermarkHit, applyFillLedger, applyFill,
      get_position, findPos, setPos, zeroPos]

/-- C2 (amended).  For every starting manager state and every exchange
response whose fills carry nonempty `fill_id`s, replaying the same response
a second time is a no-op: the watermark recorded by the first poll matches
the head of the response, so no fill is re-applied and the manager state —
in particular every position's net contracts, average entry price and
realized P&L — is unchanged. -/
theorem c2_replay_idempotent (s : PMState) (L : List Fill) (b b2 : Int)
    (h : ∀ f ∈ L, f.fill_id ≠ "") :
    (pollFills (pollFills s L b).1 L b2).1 = (pollFills s L b).1 := by
  cases L with
  | nil => simp [pollFills, collectNew]
  | cons hd tl =>
    have hhd : hd.fill_id ≠ "" := h hd (List.mem_cons_self hd tl)
    by_cases hit : truthyWatermarkHit s.last_fill_id hd.fill_id
    · simp [pollFills, collectNew, hit]
    · have hcn : collectNew s.last_fill_id (hd :: tl) =
          hd :: collectNew s.last_fill_id tl := by
        simp [collectNew, hit]
      have h1 : (pollFills s (hd :: tl) b).1 =
          { (hd :: collectNew s.last_fill_id tl).foldl applyFillLedger s with
            last_fill_id := some hd.fill_id,
            last_fill_ts := some hd.created_time,
            balance := some b } := by
        simp [pollFills, hcn]
      have hit2 : truthyWatermarkHit (some hd.fill_id) hd.fill_id = true := by
        simp [truthyWatermarkHit, hhd]
      rw [h1]
      simp [pollFills, collectNew, hit2]

/-- C2 witness: a one-fill response with a nonempty `fill_id`, replayed
against the state produced by the first poll (with a different fetched
balance the second time), leaves the state exactly as after the first
poll. -/
theorem c2_replay_idempotent_witness :
    (pollFills (pollFills { }
        [{ fill_id := "g1", order_id := "o1", ticker := "T", side := Side.yes,
           action := Action.buy, count := 1, yes_price := 50, no_price := 50,
           is_taker := false, created_time := 100 }] 0).1
        [{ fill_id := "g1", order_id := "o1", ticker := "T", side := Side.yes,
           action := Action.buy, count := 1, yes_price := 50, no_price := 50,
           is_taker := false, created_time := 100 }] 7).1 =
    (pollFills { }
        [{ fill_id := "g1", order_id := "o1", ticker := "T", side := Side.yes,
           action := Action.buy, count := 1, yes_price := 50, no_price := 50,
           is_taker := false, created_time := 100 }] 0).1 := by
  apply c2_replay_idempotent
  intro f hf
  simp only [List.mem_singleton] at hf
  rw [hf]
  decide

/-! ## Quoter state machine (src/src/quoter.py)

`QuoteState` holds the two live order ids, their prices, and the midpoint
seen at placement time.  The exchange interactions of the stateful methods
are parameters: whether the risk gate allowed a leg, the order id the
exchange returned for it (`none` when the call raised), the net position
consulted by the lone-leg cleanup, and whether each cancel call succeeded. -/
structure QuoteState where
  bid_order_id : Option String := none
  ask_order_id : Option String := none
  bid_price : Option Int := none
  ask_price : Option Int := none
  last_midpoint : Option ℚ := none
deriving DecidableEq

/-- The freshly constructed `QuoteState()`: every field absent. -/
def emptyQuoteState : QuoteState := {}

/-- Python truthiness of an `Optional[str]`: `None` and `""` are falsy. -/
def truthyS : Option String → Bool
  | none => false
  | some x => x != ""

/-- `Quoter.has_active_quotes`: both order ids are not `None`. -/
def has_active_quotes (s : QuoteState) : Bool :=
  s.bid_order_id.isSome && s.ask_order_id.isSome

/-- Python `self.state.bid_price is not None and self.state.bid_price > best_bid`. -/
def optGT (o : Option Int) (x : Int) : Bool :=
  match o with
  | some v => decide (x < v)
  | none => false

/-- Python `self.state.ask_price is not None and self.state.ask_price < best_ask`. -/
def optLT (o : Option Int) (x : Int) : Bool :=
  match o with
  | some v => decide (v < x)
  | none => false

/-- Python `bid_price is not None and ask_price is not None and bid_price >= ask_price`. -/
def optGE2 (a b : Option Int) : Bool :=
  match a, b with
  | some x, some y => decide (y ≤ x)
  | _, _ => false

/-- `Quoter.should_requote` (log-message details elided from the reason
strings). -/
def should_requote (s : QuoteState) (best_bid best_ask inventory_skew : Int) :
    Bool × String :=
  if has_active_quotes s = false then (true, "No active quotes")
  else
    let q := calculate_quotes best_bid best_ask inventory_skew
    if s.bid_price ≠ some q.1 ∨ s.ask_price ≠ some q.2 then (true, "Quotes changed")
    else if optGT s.bid_price best_bid then (true, "Bid through market")
    else if optLT s.ask_price best_ask then (true, "Ask through market")
    else if optGE2 s.bid_price s.ask_price then (true, "Quotes crossed")
    else (false, "Quotes OK")

/-- `Quoter.on_fill`: clear the leg (id and price together) whose stored
order id equals the fill's order id. -/
def on_fill (s : QuoteState) (f : Fill) : QuoteState :=
  if s.bid_order_id = some f.order_id then
    { s with bid_order_id := none, bid_price := none }
  else if s.ask_order_id = some f.order_id then
    { s with ask_order_id := none, ask_price := none }
  else s

/-- The `order_ids` list built at the top of `Quoter.cancel_quotes`
(`if self.state.bid_order_id:` — Python truthiness). -/
def collectOrderIds (s : QuoteState) : List String :=
  (match s.bid_order_id with
   | some b => if b ≠ "" then [b] else []
   | none => []) ++
  (match s.ask_order_id with
   | some a => if a ≠ "" then [a] else []
   | none => [])

/-- `Quoter.cancel_quotes`.  `apiOk` is whether `cancel_all_orders` (when
called) succeeds, and `apiCount` the count it returns on success. -/
def cancel_quotes (s : QuoteState) (force_clear apiOk : Bool) (apiCount : Nat) :
    QuoteState × Nat :=
  if collectOrderIds s = [] then (s, 0)
  else if apiOk then (emptyQuoteState, apiCount)
  else if force_clear then (emptyQuoteState, 0)
  else (s, 0)

/-- `Quoter.place_quotes` restricted to its effect on `QuoteState`:
compute prices, drop a leg blocked by the risk gate or failed at the
exchange, run the lone-leg cleanup against the current net position
(clearing the lone id only when its cancel call succeeds), and replace the
state wholesale, each leg's price recorded only when its (truthy) order id
is. -/
def place_quotes (best_bid best_ask inventory_skew : Int) (canBid : Bool)
    (bidPlaceResult : Option String) (canAsk : Bool) (askPlaceResult : Option String)
    (position : Int) (cancelBidOk cancelAskOk : Bool) :
    QuoteState × (Option String × Option String) :=
  let q := calculate_quotes best_bid best_ask inventory_skew
  let bid_oid0 : Option String := if canBid then bidPlaceResult else none
  let ask_oid0 : Option String := if canAsk then askPlaceResult else none
  let bid_oid1 : Option String :=
    if truthyS bid_oid0 = true ∧ truthyS ask_oid0 = false ∧ 0 ≤ position ∧
        cancelBidOk = true then none else bid_oid0
  let ask_oid1 : Option String :=
    if truthyS bid_oid0 = false ∧ truthyS ask_oid0 = true ∧ position ≤ 0 ∧
        cancelAskOk = true then none else ask_oid0
  (⟨bid_oid1, ask_oid1,
    (if truthyS bid_oid1 then some q.1 else none),
    (if truthyS ask_oid1 then some q.2 else none),
    some (((best_bid + best_ask : Int) : ℚ) / 2)⟩,
   (bid_oid1, ask_oid1))

/-- C7.  `cancel_quotes` resets the state to Empty when it has ids to
cancel and the API call succeeds; on API failure it resets only under
`force_clear` (returning 0) and otherwise preserves the state exactly; and
with no collected order ids it returns 0 and changes nothing. -/
theorem c7_cancel_quotes_spec (s : QuoteState) (force apiOk : Bool) (cnt : Nat) :
    (collectOrderIds s ≠ [] → apiOk = true →
      cancel_quotes s force apiOk cnt = (emptyQuoteState, cnt)) ∧
    (collectOrderIds s ≠ [] → apiOk = false →
      cancel_quotes s force apiOk cnt = (if force then emptyQuoteState else s, 0)) ∧
    (collectOrderIds s = [] → cancel_quotes s force apiOk cnt = (s, 0)) := by
  refine ⟨fun hne hok => ?_, fun hne hnok => ?_, fun he => ?_⟩
  · simp [cancel_quotes, hne, hok]
  · cases force <;> simp [cancel_quotes, hne, hnok]
  · simp [cancel_quotes, he]

/-- C7 witness: from a fully quoted state, a successful cancel (no force)
empties the state and returns the API count. -/
theorem c7_cancel_quotes_spec_witness :
    cancel_quotes
      { bid_order_id := some "b1", ask_order_id := some "a1",
        bid_price := some 48, ask_price := some 52, last_midpoint := none }
      false true 2 = (emptyQuoteState, 2) :=
  (c7_cancel_quotes_spec
      { bid_order_id := some "b1", ask_order_id := some "a1",
        bid_price := some 48, ask_price := some 52, last_midpoint := none }
      false true 2).1 (by decide) rfl

/-- C8.  After `on_fill` with a fill whose order id equals the stored bid
order id, the bid leg is cleared, `has_active_quotes` is false, and
`should_requote` returns true for every market input. -/
theorem c8_requote_after_bid_fill (s : QuoteState) (f : Fill)
    (best_bid best_ask inventory_skew : Int)
    (h : s.bid_order_id = some f.order_id) :
    (should_requote (on_fill s f) best_bid best_ask inventory_skew).1 = true := by
  have h1 : on_fill s f = { s with bid_order_id := none, bid_price := none } := by
    unfold on_fill
    rw [if_pos h]
  rw [h1]
  simp [should_requote, has_active_quotes]

/-- C8 witness: a quoted state whose bid order gets filled requotes on the
next check. -/
theorem c8_requote_after_bid_fill_witness :
    (should_requote (on_fill
      { bid_order_id := some "b1", ask_order_id := some "a1",
        bid_price := some 48, ask_price := some 52, last_midpoint := some 50 }
      { fill_id := "f9", order_id := "b1", ticker := "T", side := Side.yes,
        action := Action.buy, count := 1, yes_price := 48, no_price := 52,
        is_taker := false, created_time := 100 }) 50 52 0).1 = true :=
  c8_requote_after_bid_fill
    { bid_order_id := some "b1", ask_order_id := some "a1",
      bid_price := some 48, ask_price := some 52, last_midpoint := some 50 }
    { fill_id := "f9", order_id := "b1", ticker := "T", side := Side.yes,
      action := Action.buy, count := 1, yes_price := 48, no_price := 52,
      is_taker := false, created_time := 100 } 50 52 0 rfl

/-! ## C10: the each-leg id/price pairing invariant -/

/-- The claimed invariant: each leg's price is present exactly when its
order id is. -/
def pricedIff (s : QuoteState) : Prop :=
  s.bid_order_id.isSome = s.bid_price.isSome ∧
  s.ask_order_id.isSome = s.ask_price.isSome

/-- States reachable from the empty state through the three `QuoteState`
operations, with arbitrary exchange outcomes (order ids are arbitrary
strings, as in the source, where `place_order` returns whatever string the
exchange sent). -/
inductive Reachable : QuoteState → Prop where
  | init : Reachable emptyQuoteState
  | place (s : QuoteState) (bb ba skew : Int) (canBid canAsk : Bool)
      (bidPlaceResult askPlaceResult : Option String) (position : Int)
      (cancelBidOk cancelAskOk : Bool) (hs : Reachable s) :
      Reachable (place_quotes bb ba skew canBid bidPlaceResult canAsk askPlaceResult
        position cancelBidOk cancelAskOk).1
  | cancel (s : QuoteState) (force apiOk : Bool) (cnt : Nat) (hs : Reachable s) :
      Reachable (cancel_quotes s force apiOk cnt).1
  | fillEv (s : QuoteState) (f : Fill) (hs : Reachable s) :
      Reachable (on_fill s f)

/-- States reachable as above but with every exchange-returned order id a
nonempty string. -/
inductive ReachableNE : QuoteState → Prop where
  | init : ReachableNE emptyQuoteState
  | place (s : QuoteState) (bb ba skew : Int) (canBid canAsk : Bool)
      (bidPlaceResult askPlaceResult : Option String) (position : Int)
      (cancelBidOk cancelAskOk : Bool)
      (hb : bidPlaceResult ≠ some "") (ha : askPlaceResult ≠ some "")
      (hs : ReachableNE s) :
      ReachableNE (place_quotes bb ba skew canBid bidPlaceResult canAsk askPlaceResult
        position cancelBidOk cancelAskOk).1
  | cancel (s : QuoteState) (force apiOk : Bool) (cnt : Nat) (hs : ReachableNE s) :
      ReachableNE (cancel_quotes s force apiOk cnt).1
  | fillEv (s : QuoteState) (f : Fill) (hs : ReachableNE s) :
      ReachableNE (on_fill s f)

/-- C10 counterexample.  The claim quantifies over all exchange outcomes,
but `place_quotes` stores the raw returned id while gating the stored
price on Python truthiness: an exchange response with order id `""` for the
bid (position 1, so the lone-ask cleanup does not fire) yields a reachable
state with `bid_order_id` present and `bid_price` absent. -/
theorem c10_priced_iff_counterexample :
    Reachable (place_quotes 50 52 0 true (some "") true (some "a1") 1 true true).1 ∧
    ¬ pricedIff (place_quotes 50 52 0 true (some "") true (some "a1") 1 true true).1 := by
  constructor
  · exact Reachable.place emptyQuoteState 50 52 0 true true (some "") (some "a1") 1
      true true Reachable.init
  · intro hp
    have hbid := hp.1
    simp [place_quotes, truthyS] at hbid

/-- Helper: for an id that is not `some ""`, the price stored under the
truthiness guard is present exactly when the id is. -/
theorem isSome_if_truthy (o : Option String) (v : Int) (h : o ≠ some "") :
    ((if truthyS o then some v else none) : Option Int).isSome = o.isSome := by
  cases o with
  | none => rfl
  | some x =>
    have hx : x ≠ "" := fun hx => h (by rw [hx])
    simp [truthyS, hx]

/-- Helper: the paired invariant for any state built the way `place_quotes`
builds one, from ids that are not `some ""`. -/
theorem pricedIff_of_ids (bo ao : Option String) (bpv apv : Int) (m : Option ℚ)
    (hb : bo ≠ some "") (ha : ao ≠ some "") :
    pricedIff ⟨bo, ao, if truthyS bo then some bpv else none,
               if truthyS ao then some apv else none, m⟩ := by
  constructor
  · show bo.isSome = ((if truthyS bo then some bpv else none) : Option Int).isSome
    rw [isSome_if_truthy bo bpv hb]
  · show ao.isSome = ((if truthyS ao then some apv else none) : Option Int).isSome
    rw [isSome_if_truthy ao apv ha]

/-- Helper: a leg id of the shape `place_quotes` produces (cleanup guard
over a risk-gate guard) is never `some ""` when the exchange id is not. -/
theorem neq_some_empty_chain (C : Prop) [Decidable C] (b : Bool) (o : Option String)
    (h : o ≠ some "") :
    (if C then none else (if b then o else none)) ≠ some "" := by
  split
  · simp
  · cases b with
    | false => simp
    | true => simpa using h

/-- Helper: the state produced by `place_quotes` satisfies the paired
invariant whenever the exchange-returned ids are nonempty. -/
theorem pricedIff_place (bb ba skew : Int) (canBid canAsk : Bool)
    (bidPlaceResult askPlaceResult : Option String) (position : Int)
    (cancelBidOk cancelAskOk : Bool)
    (hb : bidPlaceResult ≠ some "") (ha : askPlaceResult ≠ some "") :
    pricedIff (place_quotes bb ba skew canBid bidPlaceResult canAsk askPlaceResult
      position cancelBidOk cancelAskOk).1 := by
  simp only [place_quotes]
  apply pricedIff_of_ids
  · exact neq_some_empty_chain _ canBid bidPlaceResult hb
  · exact neq_some_empty_chain _ canAsk askPlaceResult ha

/-- Helper: `cancel_quotes` either preserves the state or empties it. -/
theorem cancel_result (s : QuoteState) (force apiOk : Bool) (cnt : Nat) :
    (cancel_quotes s force apiOk cnt).1 = s ∨
    (cancel_quotes s force apiOk cnt).1 = emptyQuoteState := by
  unfold cancel_quotes
  split
  · exact Or.inl rfl
  · split
    · exact Or.inr rfl
    · split
      · exact Or.inr rfl
      · exact Or.inl rfl

/-- C10 (amended).  In every state reachable from the empty state via
`place_quotes`, `cancel_quotes` and `on_fill` in which the exchange only
ever returns nonempty order ids, each leg's price is present exactly when
that leg's order id is. -/
theorem c10_priced_iff_invariant (s : QuoteState) (h : ReachableNE s) :
    pricedIff s := by
  induction h with
  | init => exact ⟨rfl, rfl⟩
  | place s bb ba skew canBid canAsk bidPlaceResult askPlaceResult position
      cancelBidOk cancelAskOk hb ha hs ih =>
    exact pricedIff_place bb ba skew canBid canAsk bidPlaceResult askPlaceResult
      position cancelBidOk cancelAskOk hb ha
  | cancel s force apiOk cnt hs ih =>
    rcases cancel_result s force apiOk cnt with hc | hc
    · rw [hc]; exact ih
    · rw [hc]; exact ⟨rfl, rfl⟩
  | fillEv s f hs ih =>
    unfold on_fill
    split
    · exact ⟨rfl, ih.2⟩
    · split
      · exact ⟨ih.1, rfl⟩
      · exact ih

/-- C10 witness: a two-leg placement with nonempty order ids reaches a
state satisfying the invariant. -/
theorem c10_priced_iff_invariant_witness :
    pricedIff (place_quotes 50 52 0 true (some "b1") true (some "a1") 0 true true).1 :=
  c10_priced_iff_invariant _
    (ReachableNE.place emptyQuoteState 50 52 0 true true (some "b1") (some "a1") 0
      true true (by decide) (by decide) ReachableNE.init)

end KalshiMM
